import Mathlib

/-!
# Verification of the gardener-resource-manager core

Shallow embedding of two components of the repository:

* the health-check predicates of `pkg/health` (the unnamed source file):
  `CheckCustomResourceDefinition`, `CheckJob`, `CheckPod`, `CheckReplicaSet`,
  `CheckReplicationController` and their helpers;
* the Secret finalizer reconciler of
  `pkg/controller/managedresources/secret_controller.go`.

Go `error` results become `Option String` (`none` = healthy / success,
`some msg` = the diagnostic string). Go `int32`/`int64` counters become `Int`,
`*int32` becomes `Option Int`. Condition "types" and statuses are Go string
types and stay `String`.
-/

namespace GardenerRM

/-! ## Go `fmt` string helpers

`goQuote` models Go's `%q` verb on a string value: the string wrapped in
double quotes, with backslashes and double quotes escaped (the only escapes
that can arise for the condition-type / pod-phase vocabulary handled here).
`goQuoteList` models `%q` applied to a slice of strings, which Go prints as
`["a" "b"]`. -/

def goQuoteChar (c : Char) : List Char :=
  if c = '\\' then ['\\', '\\'] else if c = '\"' then ['\\', '\"'] else [c]

def goQuote (s : String) : String :=
  "\"" ++ String.mk (s.data.map goQuoteChar).flatten ++ "\""

def goQuoteList (l : List String) : String :=
  "[" ++ String.intercalate " " (l.map goQuote) ++ "]"

/-! ## Data model of the health-checked objects -/

/-- `corev1.ConditionTrue`. -/
def conditionTrue : String := "True"

/-- `corev1.ConditionFalse`. -/
def conditionFalse : String := "False"

/-- `apiextensionsv1beta1.CustomResourceDefinitionCondition`: the fields the
health checker reads. -/
structure CustomResourceDefinitionCondition where
  type : String
  status : String
  reason : String
  message : String
  deriving DecidableEq, Repr

structure CustomResourceDefinitionStatus where
  conditions : List CustomResourceDefinitionCondition
  deriving DecidableEq, Repr

structure CustomResourceDefinition where
  status : CustomResourceDefinitionStatus
  deriving DecidableEq, Repr

/-- `batchv1.JobCondition`: the fields the health checker reads. -/
structure JobCondition where
  type : String
  status : String
  reason : String
  message : String
  deriving DecidableEq, Repr

structure JobStatus where
  conditions : List JobCondition
  deriving DecidableEq, Repr

structure Job where
  status : JobStatus
  deriving DecidableEq, Repr

structure PodStatus where
  phase : String
  deriving DecidableEq, Repr

structure Pod where
  status : PodStatus
  deriving DecidableEq, Repr

structure ReplicaSetSpec where
  replicas : Option Int
  deriving DecidableEq, Repr

structure ReplicaSetStatus where
  observedGeneration : Int
  readyReplicas : Int
  deriving DecidableEq, Repr

structure ReplicaSet where
  generation : Int
  spec : ReplicaSetSpec
  status : ReplicaSetStatus
  deriving DecidableEq, Repr

structure ReplicationControllerSpec where
  replicas : Option Int
  deriving DecidableEq, Repr

structure ReplicationControllerStatus where
  observedGeneration : Int
  readyReplicas : Int
  deriving DecidableEq, Repr

structure ReplicationController where
  generation : Int
  spec : ReplicationControllerSpec
  status : ReplicationControllerStatus
  deriving DecidableEq, Repr

/-! ## Health checks (`pkg/health`) -/

/-- `apiextensionsv1beta1.NamesAccepted`. -/
def namesAccepted : String := "NamesAccepted"

/-- `apiextensionsv1beta1.Established`. -/
def established : String := "Established"

/-- `apiextensionsv1beta1.Terminating`. -/
def terminating : String := "Terminating"

/-- `trueCrdConditionTypes`: condition types that must be present with status
`True`. -/
def trueCrdConditionTypes : List String := [namesAccepted, established]

/-- `falseOptionalCrdConditionTypes`: condition types that, if present, must
have status `False`. -/
def falseOptionalCrdConditionTypes : List String := [terminating]

/-- `batchv1.JobFailed`. -/
def jobFailed : String := "Failed"

/-- `getCustomResourceDefinitionCondition`: first condition in list order whose
type matches, or `nil`. -/
def getCustomResourceDefinitionCondition
    (conditions : List CustomResourceDefinitionCondition) (conditionType : String) :
    Option CustomResourceDefinitionCondition :=
  conditions.find? (fun condition => condition.type == conditionType)

/-- `getJobCondition`: first condition in list order whose type matches, or
`nil`. -/
def getJobCondition (conditions : List JobCondition) (conditionType : String) :
    Option JobCondition :=
  conditions.find? (fun condition => condition.type == conditionType)

/-- `requiredConditionMissing`: `condition %q is missing`. -/
def requiredConditionMissing (conditionType : String) : Option String :=
  some ("condition " ++ goQuote conditionType ++ " is missing")

/-- `checkConditionState`: error unless the actual status equals the expected
one; `condition %q has invalid status %s (expected %s) due to %s: %s`. -/
def checkConditionState (conditionType expected actual reason message : String) :
    Option String :=
  if expected != actual then
    some ("condition " ++ goQuote conditionType ++ " has invalid status " ++ actual ++
      " (expected " ++ expected ++ ") due to " ++ reason ++ ": " ++ message)
  else
    none

/-- First loop of `CheckCustomResourceDefinition`: every type in the list must
be present with status `True`; the first violation is returned. -/
def checkTrueCrdConditions (conditions : List CustomResourceDefinitionCondition) :
    List String → Option String
  | [] => none
  | conditionType :: rest =>
    match getCustomResourceDefinitionCondition conditions conditionType with
    | none => requiredConditionMissing conditionType
    | some condition =>
      match checkConditionState conditionType conditionTrue condition.status
          condition.reason condition.message with
      | some e => some e
      | none => checkTrueCrdConditions conditions rest

/-- Second loop of `CheckCustomResourceDefinition`: every type in the list, if
present, must have status `False`; absent types are skipped. -/
def checkFalseOptionalCrdConditions (conditions : List CustomResourceDefinitionCondition) :
    List String → Option String
  | [] => none
  | conditionType :: rest =>
    match getCustomResourceDefinitionCondition conditions conditionType with
    | none => checkFalseOptionalCrdConditions conditions rest
    | some condition =>
      match checkConditionState conditionType conditionFalse condition.status
          condition.reason condition.message with
      | some e => some e
      | none => checkFalseOptionalCrdConditions conditions rest

/-- `CheckCustomResourceDefinition`: healthy iff `NamesAccepted` and
`Established` are present with status `True` and `Terminating` is missing or
has status `False`. -/
def CheckCustomResourceDefinition (crd : CustomResourceDefinition) : Option String :=
  match checkTrueCrdConditions crd.status.conditions trueCrdConditionTypes with
  | some e => some e
  | none => checkFalseOptionalCrdConditions crd.status.conditions falseOptionalCrdConditionTypes

/-- `CheckJob`: healthy iff the `Failed` condition is missing or has status
`False`. -/
def CheckJob (job : Job) : Option String :=
  match getJobCondition job.status.conditions jobFailed with
  | none => none
  | some condition =>
    checkConditionState jobFailed conditionFalse condition.status
      condition.reason condition.message

/-- `healthyPodPhases`. -/
def healthyPodPhases : List String := ["Running", "Succeeded"]

/-- `CheckPod`: healthy iff `status.phase` is one of the healthy phases;
otherwise `pod is in invalid phase %q (expected one of %q)`. -/
def CheckPod (pod : Pod) : Option String :=
  if healthyPodPhases.contains pod.status.phase then
    none
  else
    some ("pod is in invalid phase " ++ goQuote pod.status.phase ++
      " (expected one of " ++ goQuoteList healthyPodPhases ++ ")")

/-- The `observed generation outdated (%d/%d)` message shared by
`CheckReplicaSet` and `CheckReplicationController`. -/
def observedGenerationOutdatedMsg (observed generation : Int) : String :=
  "observed generation outdated (" ++ toString observed ++ "/" ++ toString generation ++ ")"

/-- `CheckReplicaSet`. -/
def CheckReplicaSet (rs : ReplicaSet) : Option String :=
  if rs.status.observedGeneration < rs.generation then
    some (observedGenerationOutdatedMsg rs.status.observedGeneration rs.generation)
  else
    match rs.spec.replicas with
    | some replicas =>
      if rs.status.readyReplicas < replicas then
        some "ReplicaSet does not have minimum availability"
      else
        none
    | none => none

/-- `CheckReplicationController`. -/
def CheckReplicationController (rc : ReplicationController) : Option String :=
  if rc.status.observedGeneration < rc.generation then
    some (observedGenerationOutdatedMsg rc.status.observedGeneration rc.generation)
  else
    match rc.spec.replicas with
    | some replicas =>
      if rc.status.readyReplicas < replicas then
        some "ReplicationController does not have minimum availability"
      else
        none
    | none => none

/-! ## Data model of the Secret reconciler
(`pkg/controller/managedresources/secret_controller.go`) -/

/-- The fields of a `corev1.Secret` the reconciler touches or must preserve:
identity, the finalizer list, the payload (`data`), and the concurrency token
(`resourceVersion`). `ns` is the object's namespace. -/
structure Secret where
  name : String
  ns : String
  finalizers : List String
  data : List (String × String)
  resourceVersion : Nat
  deriving DecidableEq, Repr

/-- `corev1.LocalObjectReference`: a by-name reference within the same
namespace. -/
structure LocalObjectReference where
  name : String
  deriving DecidableEq, Repr

/-- The fields of a `resourcesv1alpha1.ManagedResource` the reconciler reads:
its namespace, its class label (`spec.class`, absent when nil), and
`spec.secretRefs`. -/
structure ManagedResource where
  ns : String
  resourceClass : Option String
  secretRefs : List LocalObjectReference
  deriving DecidableEq, Repr

/-- Modelled from the spec: the default sentinel class a descriptor is treated
as carrying when its class label is absent (§3, §4.1). The concrete literal is
not fixed by the spec; only its fixedness matters here. -/
def defaultClassName : String := "default"

/-- Modelled from the spec: the fixed domain-qualified base finalizer
identifier of the default class (§4.1, §6). The concrete literal is not fixed
by the spec; only its fixedness and per-class distinctness matter here. -/
def baseFinalizerName : String := "resources/finalizer"

/-- Modelled from the spec: the `ClassFilter` component is not present under
the sources (only its callers are); it holds the class the reconciler
instance is configured for (§4.1). -/
structure ClassFilter where
  resourceClass : String
  deriving DecidableEq, Repr

/-- Modelled from the spec: `Responsible(descriptor)` is true iff the
descriptor's class equals the filter's configured class, where an absent class
label counts as the default class (so a filter configured for the default
class matches both an explicit default label and an absent label) (§4.1). -/
def ClassFilter.Responsible (f : ClassFilter) (r : ManagedResource) : Bool :=
  r.resourceClass.getD defaultClassName == f.resourceClass

/-- Modelled from the spec: `FinalizerName()` is the fixed base identifier for
the default class and a class-qualified variant for any other class, so that
no two distinct classes collide (§4.1). -/
def ClassFilter.FinalizerName (f : ClassFilter) : String :=
  if f.resourceClass == defaultClassName then baseFinalizerName
  else baseFinalizerName ++ "-" ++ f.resourceClass

/-- `sets.NewString(...).Insert(s)` at membership level: the finalizer list
with `s` added if absent. -/
def stringSetInsert (s : String) (l : List String) : List String :=
  if l.contains s then l else l.concat s

/-- `sets.NewString(...).Delete(s)` at membership level: the finalizer list
with every occurrence of `s` removed. -/
def stringSetDelete (s : String) (l : List String) : List String :=
  l.filter (fun g => g != s)

/-- Outcome the remote store yields for one update attempt. A `conflict` (a
concurrency-token mismatch) carries what a subsequent re-read of the Secret
and of the namespace's ManagedResources would return; the reconciler under
verification only re-reads the Secret, the fresh resource list is consumed
only by the spec-reading variant `ReconcileRecompute`. -/
inductive UpdateOutcome where
  | success
  | conflict (freshSecret : Secret) (freshResources : List ManagedResource)
  | notFound
  | otherError
  deriving DecidableEq, Repr

/-- Result of the bounded-retry update: the written Secret on success, or the
kind of failure (`timeout` is the budget exhausted by conflicts, the
`wait.ErrWaitTimeout` outcome). -/
inductive TryUpdateResult where
  | updated (written : Secret)
  | failedNotFound
  | failedOther
  | timeout
  deriving DecidableEq, Repr

/-- A run of the bounded-retry update: its result together with every update
call issued, each as the pair (object the attempt started from, object it
wrote). -/
structure TryUpdateRun where
  result : TryUpdateResult
  writes : List (Secret × Secret)
  deriving DecidableEq, Repr

/-- Modelled from the spec: `utils.TryUpdate` is not present under the
sources. Per §4.2.5, a required write is a read-modify-write retried on
concurrency conflicts up to a bounded number of attempts: each attempt applies
the transform to the current in-memory Secret and issues an update; on a
conflict the Secret is re-read (the `conflict` outcome's fresh Secret) and the
attempt is retried; any other error stops the retries; exhausting the attempt
budget on conflicts yields `timeout`. -/
def tryUpdate (transform : Secret → Secret) :
    Nat → Secret → List UpdateOutcome → TryUpdateRun
  | 0, _, _ => { result := .timeout, writes := [] }
  | steps + 1, secret, outcomes =>
    match outcomes.head?.getD .success with
    | .success =>
      { result := .updated (transform secret), writes := [(secret, transform secret)] }
    | .notFound =>
      { result := .failedNotFound, writes := [(secret, transform secret)] }
    | .otherError =>
      { result := .failedOther, writes := [(secret, transform secret)] }
    | .conflict fresh _ =>
      { result := (tryUpdate transform steps fresh outcomes.tail).result
        writes := (secret, transform secret) ::
          (tryUpdate transform steps fresh outcomes.tail).writes }

/-- The shape of `wait.Backoff` as used via `retry.DefaultBackoff`: initial
delay, multiplicative factor, and the attempt budget. -/
structure Backoff where
  duration : Nat
  factor : Nat
  steps : Nat
  deriving DecidableEq, Repr

/-- `retry.DefaultBackoff` from client-go: 10ms initial duration, factor 5,
4 steps. (Its jitter of 0.1 perturbs each delay upward by at most 10% and is
omitted; it cannot affect boundedness or monotonicity.) -/
def retryDefaultBackoff : Backoff := { duration := 10, factor := 5, steps := 4 }

/-- The schedule of delays (in milliseconds) a `Backoff` sleeps between
attempts: `duration * factor ^ i` before retry `i`. -/
def backoffDelays (b : Backoff) : List Nat :=
  (List.range b.steps).map (fun i => b.duration * b.factor ^ i)

/-- Result of the initial `client.Get` on the Secret. -/
inductive GetSecretResult where
  | found (secret : Secret)
  | notFound
  | error
  deriving DecidableEq, Repr

/-- Result of the namespace-scoped `client.List` on ManagedResources; on
success it carries the ManagedResources of the Secret's namespace. -/
inductive ListResourcesResult where
  | ok (items : List ManagedResource)
  | error
  deriving DecidableEq, Repr

/-- One reconcile invocation's interactions with the remote store, fixed up
front: what the Get returns, what the List returns, and the outcome of each
update attempt in order. -/
structure ReconcileEnv where
  getSecret : GetSecretResult
  listResources : ListResourcesResult
  updateOutcomes : List UpdateOutcome
  deriving DecidableEq, Repr

/-- Observable outcome of one `Reconcile` call: the returned
`reconcile.Result.RequeueAfter` (in seconds), whether a non-nil error was
returned, whether the update-failure log line was emitted, whether the
resource list was requested, every update call issued, and — when the
reconcile returns success and the Secret's state is determined — that final
state. -/
structure ReconcileOutput where
  requeueAfterSeconds : Nat
  hasError : Bool
  loggedUpdateFailure : Bool
  listedResources : Bool
  writes : List (Secret × Secret)
  finalSecret : Option Secret
  deriving DecidableEq, Repr

/-- The referenced-check loop of `Reconcile` (lines 81-90): true iff some
listed ManagedResource has a secretRef naming the Secret and the class filter
deems the reconciler responsible for it. -/
def secretIsReferenced (classFilter : ClassFilter) (secret : Secret)
    (items : List ManagedResource) : Bool :=
  items.any fun resource =>
    resource.secretRefs.any fun ref =>
      ref.name == secret.name && classFilter.Responsible resource

/-- The update closure of `Reconcile` (lines 106-114): rebuild the finalizer
set from the (possibly re-read) Secret and insert or delete the controller's
finalizer according to the flags computed before the retry loop. -/
def finalizerTransform (controllerFinalizer : String)
    (addFinalizer removeFinalizer : Bool) (secret : Secret) : Secret :=
  { secret with
      finalizers :=
        if addFinalizer then stringSetInsert controllerFinalizer secret.finalizers
        else if removeFinalizer then stringSetDelete controllerFinalizer secret.finalizers
        else secret.finalizers }

/-- The `addFinalizer` flag of `Reconcile` (line 95): the Secret is referenced
but does not carry the controller's finalizer. -/
def reconcileAddFinalizer (classFilter : ClassFilter) (secret : Secret)
    (items : List ManagedResource) : Bool :=
  secretIsReferenced classFilter secret items &&
    !(secret.finalizers.contains classFilter.FinalizerName)

/-- The `removeFinalizer` flag of `Reconcile` (line 99): the Secret is not
referenced but carries the controller's finalizer. -/
def reconcileRemoveFinalizer (classFilter : ClassFilter) (secret : Secret)
    (items : List ManagedResource) : Bool :=
  !(secretIsReferenced classFilter secret items) &&
    secret.finalizers.contains classFilter.FinalizerName

/-- The retry run `Reconcile` performs when a write is needed (line 106): the
bounded-retry update with the finalizer transform for the decision computed
from the fetched Secret and listed resources. -/
def reconcileRun (classFilter : ClassFilter) (secret : Secret)
    (items : List ManagedResource) (outcomes : List UpdateOutcome) : TryUpdateRun :=
  tryUpdate
    (finalizerTransform classFilter.FinalizerName
      (reconcileAddFinalizer classFilter secret items)
      (reconcileRemoveFinalizer classFilter secret items))
    retryDefaultBackoff.steps secret outcomes

/-- `SecretReconciler.Reconcile` (lines 63-123): fetch the Secret (not-found
is a terminal success), list the namespace's ManagedResources, compute the
referenced bit and the add/remove decision, and when a write is needed run the
bounded-retry update; a not-found from the update is ignored, and any other
update failure is logged and turned into a success with a fixed 5-second
requeue. -/
def Reconcile (classFilter : ClassFilter) (env : ReconcileEnv) : ReconcileOutput :=
  match env.getSecret with
  | .error =>
    { requeueAfterSeconds := 0, hasError := true, loggedUpdateFailure := false
      listedResources := false, writes := [], finalSecret := none }
  | .notFound =>
    { requeueAfterSeconds := 0, hasError := false, loggedUpdateFailure := false
      listedResources := false, writes := [], finalSecret := none }
  | .found secret =>
    match env.listResources with
    | .error =>
      { requeueAfterSeconds := 0, hasError := true, loggedUpdateFailure := false
        listedResources := true, writes := [], finalSecret := none }
    | .ok items =>
      if reconcileAddFinalizer classFilter secret items ||
          reconcileRemoveFinalizer classFilter secret items then
        match (reconcileRun classFilter secret items env.updateOutcomes).result with
        | .updated written =>
          { requeueAfterSeconds := 0, hasError := false, loggedUpdateFailure := false
            listedResources := true
            writes := (reconcileRun classFilter secret items env.updateOutcomes).writes
            finalSecret := some written }
        | .failedNotFound =>
          { requeueAfterSeconds := 0, hasError := false, loggedUpdateFailure := false
            listedResources := true
            writes := (reconcileRun classFilter secret items env.updateOutcomes).writes
            finalSecret := none }
        | .failedOther =>
          { requeueAfterSeconds := 5, hasError := false, loggedUpdateFailure := true
            listedResources := true
            writes := (reconcileRun classFilter secret items env.updateOutcomes).writes
            finalSecret := none }
        | .timeout =>
          { requeueAfterSeconds := 5, hasError := false, loggedUpdateFailure := true
            listedResources := true
            writes := (reconcileRun classFilter secret items env.updateOutcomes).writes
            finalSecret := none }
      else
        { requeueAfterSeconds := 0, hasError := false, loggedUpdateFailure := false
          listedResources := true, writes := [], finalSecret := some secret }

/-- Modelled from the spec: the retry loop of one reconcile under the spec's
reading that a conflicted write "re-reads and retries the whole add/remove
decision" / "recomputes desired state again rather than replaying a stale
decision" (§4.2.5, §5): on each attempt the referenced bit and the add/remove
decision are recomputed from the current Secret and resource list, and a
conflict replaces both with their fresh re-read values. Returns the Secret's
final state when the reconcile completes successfully. Exists only to compare
the code's actual retry behavior against this reading. -/
def reconcileRecomputeLoop (classFilter : ClassFilter) :
    Nat → Secret → List ManagedResource → List UpdateOutcome → Option Secret
  | 0, _, _, _ => none
  | steps + 1, secret, items, outcomes =>
    let referenced := secretIsReferenced classFilter secret items
    let controllerFinalizer := classFilter.FinalizerName
    let hasFinalizer := secret.finalizers.contains controllerFinalizer
    let addFinalizer := referenced && !hasFinalizer
    let removeFinalizer := !referenced && hasFinalizer
    if addFinalizer || removeFinalizer then
      match outcomes.head?.getD .success with
      | .success =>
        some (finalizerTransform controllerFinalizer addFinalizer removeFinalizer secret)
      | .conflict fresh freshItems =>
        reconcileRecomputeLoop classFilter steps fresh freshItems outcomes.tail
      | .notFound => none
      | .otherError => none
    else
      some secret

/-- Modelled from the spec: whole-reconcile wrapper around
`reconcileRecomputeLoop`, sharing the fetch/list phase with `Reconcile`. -/
def ReconcileRecompute (classFilter : ClassFilter) (env : ReconcileEnv) : Option Secret :=
  match env.getSecret with
  | .found secret =>
    match env.listResources with
    | .ok items =>
      reconcileRecomputeLoop classFilter retryDefaultBackoff.steps secret items
        env.updateOutcomes
    | .error => none
  | .notFound => none
  | .error => none

/-! ## Helper lemmas -/

theorem mem_stringSetInsert (g f : String) (l : List String) :
    g ∈ stringSetInsert f l ↔ g = f ∨ g ∈ l := by
  simp only [stringSetInsert]
  split_ifs with h
  · simp only [List.contains_eq_any_beq, List.any_eq_true, beq_iff_eq] at h
    obtain ⟨x, hx, hxf⟩ := h
    constructor
    · intro hg
      exact Or.inr hg
    · intro hg
      rcases hg with hg | hg
      · exact hg ▸ (hxf ▸ hx)
      · exact hg
  · simp [List.concat_eq_append, or_comm]

theorem mem_stringSetDelete (g f : String) (l : List String) :
    g ∈ stringSetDelete f l ↔ g ∈ l ∧ g ≠ f := by
  simp [stringSetDelete, List.mem_filter]

theorem stringSetDelete_not_mem (f : String) (l : List String) :
    f ∉ stringSetDelete f l := by
  intro h
  exact ((mem_stringSetDelete f f l).mp h).2 rfl

theorem contains_eq_true_iff_mem (l : List String) (a : String) :
    l.contains a = true ↔ a ∈ l := by
  simp

theorem secretIsReferenced_iff (classFilter : ClassFilter) (secret : Secret)
    (items : List ManagedResource) :
    secretIsReferenced classFilter secret items = true ↔
      ∃ r ∈ items, classFilter.Responsible r = true ∧
        ∃ ref ∈ r.secretRefs, ref.name = secret.name := by
  simp only [secretIsReferenced, List.any_eq_true, Bool.and_eq_true, beq_iff_eq]
  constructor
  · rintro ⟨r, hr, ref, href, hname, hresp⟩
    exact ⟨r, hr, hresp, ref, href, hname⟩
  · rintro ⟨r, hr, hresp, ref, href, hname⟩
    exact ⟨r, hr, ref, href, hname, hresp⟩

theorem tryUpdate_writes_length (transform : Secret → Secret) :
    ∀ (steps : Nat) (secret : Secret) (outcomes : List UpdateOutcome),
      (tryUpdate transform steps secret outcomes).writes.length ≤ steps := by
  intro steps
  induction steps with
  | zero => intro secret outcomes; simp [tryUpdate]
  | succ n ih =>
    intro secret outcomes
    cases h : outcomes.head?.getD .success with
    | success => simp [tryUpdate, h]
    | notFound => simp [tryUpdate, h]
    | otherError => simp [tryUpdate, h]
    | conflict fresh freshItems =>
      simp only [tryUpdate, h, List.length_cons]
      exact Nat.succ_le_succ (ih fresh outcomes.tail)

theorem tryUpdate_writes_are_transform (transform : Secret → Secret) :
    ∀ (steps : Nat) (secret : Secret) (outcomes : List UpdateOutcome)
      (pre post : Secret),
      (pre, post) ∈ (tryUpdate transform steps secret outcomes).writes →
      post = transform pre := by
  intro steps
  induction steps with
  | zero => intro secret outcomes pre post h; simp [tryUpdate] at h
  | succ n ih =>
    intro secret outcomes pre post h
    cases ho : outcomes.head?.getD .success with
    | success =>
      simp [tryUpdate, ho] at h
      exact h.2.symm ▸ (h.1 ▸ rfl)
    | notFound =>
      simp [tryUpdate, ho] at h
      exact h.2.symm ▸ (h.1 ▸ rfl)
    | otherError =>
      simp [tryUpdate, ho] at h
      exact h.2.symm ▸ (h.1 ▸ rfl)
    | conflict fresh freshItems =>
      simp only [tryUpdate, ho, List.mem_cons, Prod.mk.injEq] at h
      rcases h with ⟨h1, h2⟩ | h
      · exact h2.symm ▸ (h1 ▸ rfl)
      · exact ih fresh outcomes.tail pre post h

theorem tryUpdate_nil_outcomes (transform : Secret → Secret) (steps : Nat)
    (secret : Secret) (h : 0 < steps) :
    tryUpdate transform steps secret [] =
      { result := .updated (transform secret), writes := [(secret, transform secret)] } := by
  cases steps with
  | zero => omega
  | succ n => simp [tryUpdate]

theorem append_group3 (x a b c d : String) (h : a ++ (b ++ c) = d) :
    ((x ++ a) ++ b) ++ c = x ++ d := by
  rw [String.append_assoc, String.append_assoc, h]

/-! ## Claims -/

/-- C9: for every Pod, the health check returns healthy iff `status.phase` is
`Running` or `Succeeded`; for any other phase it returns a failure whose
message has exactly the format `pod is in invalid phase %q (expected one of
%q)`, naming the actual phase and the accepted set `["Running" "Succeeded"]`. -/
theorem pod_health_policy (pod : Pod) :
    (CheckPod pod = none ↔
      pod.status.phase = "Running" ∨ pod.status.phase = "Succeeded") ∧
    (pod.status.phase ≠ "Running" → pod.status.phase ≠ "Succeeded" →
      CheckPod pod = some ("pod is in invalid phase " ++ goQuote pod.status.phase ++
        " (expected one of [\"Running\" \"Succeeded\"])")) := by
  constructor
  · simp only [CheckPod]
    split_ifs with h
    · simp only [true_iff]
      simpa [healthyPodPhases] using h
    · simp only [false_iff] at *
      intro hc
      apply h
      simp [healthyPodPhases]
      tauto
  · intro h1 h2
    simp only [CheckPod]
    rw [if_neg]
    · rw [append_group3 ("pod is in invalid phase " ++ goQuote pod.status.phase)
        " (expected one of " (goQuoteList healthyPodPhases) ")"
        " (expected one of [\"Running\" \"Succeeded\"])" (by decide)]
    · simp [healthyPodPhases]
      tauto

/-- Witness for C9 at Scenario E: a Pod in phase `Pending` fails naming the
phase and the accepted set. -/
theorem pod_health_policy_witness :
    CheckPod { status := { phase := "Pending" } } =
      some "pod is in invalid phase \"Pending\" (expected one of [\"Running\" \"Succeeded\"])" := by
  have h := (pod_health_policy { status := { phase := "Pending" } }).2
    (by decide) (by decide)
  rw [h]
  decide

/-- C4: for every ReplicaSet and ReplicationController, the health check
returns healthy iff `status.observedGeneration ≥ metadata.generation` and
(`spec.replicas` unset or `status.readyReplicas ≥ spec.replicas`); violating
the first yields exactly `observed generation outdated (<observed>/<generation>)`,
violating the second yields exactly `<Kind> does not have minimum availability`,
and the two kinds implement the identical policy with only the kind name
substituted in the second message. -/
theorem replicaset_replicationcontroller_health_policy
    (rs : ReplicaSet) (rc : ReplicationController) :
    (CheckReplicaSet rs = none ↔
      (rs.generation ≤ rs.status.observedGeneration ∧
        (rs.spec.replicas = none ∨
          ∃ n, rs.spec.replicas = some n ∧ n ≤ rs.status.readyReplicas))) ∧
    (rs.status.observedGeneration < rs.generation →
      CheckReplicaSet rs = some ("observed generation outdated (" ++
        toString rs.status.observedGeneration ++ "/" ++ toString rs.generation ++ ")")) ∧
    (∀ n, rs.generation ≤ rs.status.observedGeneration → rs.spec.replicas = some n →
      rs.status.readyReplicas < n →
      CheckReplicaSet rs = some "ReplicaSet does not have minimum availability") ∧
    (CheckReplicationController rc = none ↔
      (rc.generation ≤ rc.status.observedGeneration ∧
        (rc.spec.replicas = none ∨
          ∃ n, rc.spec.replicas = some n ∧ n ≤ rc.status.readyReplicas))) ∧
    (rc.status.observedGeneration < rc.generation →
      CheckReplicationController rc = some ("observed generation outdated (" ++
        toString rc.status.observedGeneration ++ "/" ++ toString rc.generation ++ ")")) ∧
    (∀ n, rc.generation ≤ rc.status.observedGeneration → rc.spec.replicas = some n →
      rc.status.readyReplicas < n →
      CheckReplicationController rc =
        some "ReplicationController does not have minimum availability") ∧
    (∀ g og rep rr,
      (CheckReplicaSet ⟨g, ⟨rep⟩, ⟨og, rr⟩⟩ = none ↔
        CheckReplicationController ⟨g, ⟨rep⟩, ⟨og, rr⟩⟩ = none) ∧
      (og < g →
        CheckReplicationController ⟨g, ⟨rep⟩, ⟨og, rr⟩⟩ =
          CheckReplicaSet ⟨g, ⟨rep⟩, ⟨og, rr⟩⟩) ∧
      (g ≤ og → ∀ n, rep = some n → rr < n →
        CheckReplicaSet ⟨g, ⟨rep⟩, ⟨og, rr⟩⟩ =
          some "ReplicaSet does not have minimum availability" ∧
        CheckReplicationController ⟨g, ⟨rep⟩, ⟨og, rr⟩⟩ =
          some "ReplicationController does not have minimum availability")) := by
  refine ⟨?_, ?_, ?_, ?_, ?_, ?_, ?_⟩
  · simp only [CheckReplicaSet]
    split_ifs with h
    · constructor
      · intro hc
        simp at hc
      · rintro ⟨h1, _⟩
        omega
    · cases hrep : rs.spec.replicas with
      | none => simp [hrep]; omega
      | some n =>
        simp only [hrep]
        split_ifs with hr
        · constructor
          · intro hc; simp at hc
          · rintro ⟨_, h2 | ⟨m, hm, hmle⟩⟩
            · simp at h2
            · injection hm with hm
              omega
        · constructor
          · intro _
            exact ⟨by omega, Or.inr ⟨n, rfl, by omega⟩⟩
          · intro _
            rfl
  · intro h
    simp [CheckReplicaSet, h, observedGenerationOutdatedMsg]
  · intro n h1 h2 h3
    simp [CheckReplicaSet, h2, show ¬(rs.status.observedGeneration < rs.generation) by omega, h3]
  · simp only [CheckReplicationController]
    split_ifs with h
    · constructor
      · intro hc
        simp at hc
      · rintro ⟨h1, _⟩
        omega
    · cases hrep : rc.spec.replicas with
      | none => simp [hrep]; omega
      | some n =>
        simp only [hrep]
        split_ifs with hr
        · constructor
          · intro hc; simp at hc
          · rintro ⟨_, h2 | ⟨m, hm, hmle⟩⟩
            · simp at h2
            · injection hm with hm
              omega
        · constructor
          · intro _
            exact ⟨by omega, Or.inr ⟨n, rfl, by omega⟩⟩
          · intro _
            rfl
  · intro h
    simp [CheckReplicationController, h, observedGenerationOutdatedMsg]
  · intro n h1 h2 h3
    simp [CheckReplicationController, h2,
      show ¬(rc.status.observedGeneration < rc.generation) by omega, h3]
  · intro g og rep rr
    refine ⟨?_, ?_, ?_⟩
    · simp only [CheckReplicaSet, CheckReplicationController]
      split_ifs with h
      · simp
      · cases rep with
        | none => simp
        | some n =>
          simp only
          split_ifs with hr
          · simp
          · simp
    · intro h
      simp [CheckReplicaSet, CheckReplicationController, h]
    · intro h n hrep hlt
      constructor
      · simp [CheckReplicaSet, hrep, show ¬(og < g) by omega, hlt]
      · simp [CheckReplicationController, hrep, show ¬(og < g) by omega, hlt]

/-- Witness for C4 at Scenario F: `spec.replicas = 3`, `readyReplicas = 2`,
`observedGeneration = generation` fails with the minimum-availability message
for each kind, and an outdated ReplicaSet reports the generation pair. -/
theorem replicaset_replicationcontroller_health_policy_witness :
    CheckReplicaSet ⟨1, ⟨some 3⟩, ⟨1, 2⟩⟩ =
      some "ReplicaSet does not have minimum availability" ∧
    CheckReplicationController ⟨1, ⟨some 3⟩, ⟨1, 2⟩⟩ =
      some "ReplicationController does not have minimum availability" ∧
    CheckReplicaSet ⟨2, ⟨none⟩, ⟨1, 0⟩⟩ =
      some "observed generation outdated (1/2)" := by
  have h := replicaset_replicationcontroller_health_policy
    ⟨1, ⟨some 3⟩, ⟨1, 2⟩⟩ ⟨1, ⟨some 3⟩, ⟨1, 2⟩⟩
  have h2 := replicaset_replicationcontroller_health_policy
    ⟨2, ⟨none⟩, ⟨1, 0⟩⟩ ⟨1, ⟨some 3⟩, ⟨1, 2⟩⟩
  refine ⟨h.2.2.1 3 (by decide) rfl (by decide),
    h.2.2.2.2.2.1 3 (by decide) rfl (by decide), ?_⟩
  have h3 := h2.2.1 (by decide)
  rw [h3]
  decide

theorem crd_invalid_msg_na (a r m : String) :
    "condition " ++ goQuote namesAccepted ++ " has invalid status " ++ a ++
      " (expected " ++ conditionTrue ++ ") due to " ++ r ++ ": " ++ m =
    "condition \"NamesAccepted\" has invalid status " ++ a ++
      " (expected True) due to " ++ r ++ ": " ++ m := by
  rw [show "condition " ++ goQuote namesAccepted ++ " has invalid status " =
    "condition \"NamesAccepted\" has invalid status " from by decide]
  rw [append_group3 ("condition \"NamesAccepted\" has invalid status " ++ a)
    " (expected " conditionTrue ") due to " " (expected True) due to " (by decide)]

theorem crd_invalid_msg_est (a r m : String) :
    "condition " ++ goQuote established ++ " has invalid status " ++ a ++
      " (expected " ++ conditionTrue ++ ") due to " ++ r ++ ": " ++ m =
    "condition \"Established\" has invalid status " ++ a ++
      " (expected True) due to " ++ r ++ ": " ++ m := by
  rw [show "condition " ++ goQuote established ++ " has invalid status " =
    "condition \"Established\" has invalid status " from by decide]
  rw [append_group3 ("condition \"Established\" has invalid status " ++ a)
    " (expected " conditionTrue ") due to " " (expected True) due to " (by decide)]

theorem crd_invalid_msg_term (a r m : String) :
    "condition " ++ goQuote terminating ++ " has invalid status " ++ a ++
      " (expected " ++ conditionFalse ++ ") due to " ++ r ++ ": " ++ m =
    "condition \"Terminating\" has invalid status " ++ a ++
      " (expected False) due to " ++ r ++ ": " ++ m := by
  rw [show "condition " ++ goQuote terminating ++ " has invalid status " =
    "condition \"Terminating\" has invalid status " from by decide]
  rw [append_group3 ("condition \"Terminating\" has invalid status " ++ a)
    " (expected " conditionFalse ") due to " " (expected False) due to " (by decide)]

/-- Full case analysis of `CheckCustomResourceDefinition` in terms of the three
condition lookups. -/
theorem checkCRD_cases (crd : CustomResourceDefinition) :
    CheckCustomResourceDefinition crd =
      match getCustomResourceDefinitionCondition crd.status.conditions namesAccepted with
      | none => some "condition \"NamesAccepted\" is missing"
      | some c =>
        if c.status = conditionTrue then
          match getCustomResourceDefinitionCondition crd.status.conditions established with
          | none => some "condition \"Established\" is missing"
          | some d =>
            if d.status = conditionTrue then
              match getCustomResourceDefinitionCondition crd.status.conditions terminating with
              | none => none
              | some t =>
                if t.status = conditionFalse then none
                else some ("condition \"Terminating\" has invalid status " ++ t.status ++
                  " (expected False) due to " ++ t.reason ++ ": " ++ t.message)
            else some ("condition \"Established\" has invalid status " ++ d.status ++
              " (expected True) due to " ++ d.reason ++ ": " ++ d.message)
        else some ("condition \"NamesAccepted\" has invalid status " ++ c.status ++
          " (expected True) due to " ++ c.reason ++ ": " ++ c.message) := by
  simp only [CheckCustomResourceDefinition, trueCrdConditionTypes,
    falseOptionalCrdConditionTypes, checkTrueCrdConditions, checkFalseOptionalCrdConditions]
  cases hna : getCustomResourceDefinitionCondition crd.status.conditions namesAccepted with
  | none =>
    simp only [requiredConditionMissing]
    rw [show "condition " ++ goQuote namesAccepted ++ " is missing" =
      "condition \"NamesAccepted\" is missing" from by decide]
  | some c =>
    dsimp only
    by_cases hcs : c.status = conditionTrue
    · rw [show checkConditionState namesAccepted conditionTrue c.status c.reason c.message =
        none from by simp [checkConditionState, hcs]]
      simp only
      cases hest : getCustomResourceDefinitionCondition crd.status.conditions established with
      | none =>
        simp only [hcs, if_true, requiredConditionMissing]
        rw [show "condition " ++ goQuote established ++ " is missing" =
          "condition \"Established\" is missing" from by decide]
      | some d =>
        dsimp only
        by_cases hds : d.status = conditionTrue
        · rw [show checkConditionState established conditionTrue d.status d.reason d.message =
            none from by simp [checkConditionState, hds]]
          simp only [hcs, hds, if_true]
          cases hterm : getCustomResourceDefinitionCondition crd.status.conditions terminating with
          | none => simp
          | some t =>
            dsimp only
            by_cases hts : t.status = conditionFalse
            · rw [show checkConditionState terminating conditionFalse t.status t.reason t.message =
                none from by simp [checkConditionState, hts]]
              simp [hts]
            · rw [show checkConditionState terminating conditionFalse t.status t.reason t.message =
                some ("condition " ++ goQuote terminating ++ " has invalid status " ++ t.status ++
                  " (expected " ++ conditionFalse ++ ") due to " ++ t.reason ++ ": " ++ t.message)
                from by
                  simp only [checkConditionState, if_pos]
                  rw [if_pos]
                  simp only [bne_iff_ne, Ne]
                  exact fun h2 => hts h2.symm]
              simp only [hts, if_false]
              rw [crd_invalid_msg_term]
        · rw [show checkConditionState established conditionTrue d.status d.reason d.message =
            some ("condition " ++ goQuote established ++ " has invalid status " ++ d.status ++
              " (expected " ++ conditionTrue ++ ") due to " ++ d.reason ++ ": " ++ d.message)
            from by
              simp only [checkConditionState]
              rw [if_pos]
              simp only [bne_iff_ne, Ne]
              exact fun h2 => hds h2.symm]
          simp only [hcs, hds, if_true, if_false]
          rw [crd_invalid_msg_est]
    · rw [show checkConditionState namesAccepted conditionTrue c.status c.reason c.message =
        some ("condition " ++ goQuote namesAccepted ++ " has invalid status " ++ c.status ++
          " (expected " ++ conditionTrue ++ ") due to " ++ c.reason ++ ": " ++ c.message)
        from by
          simp only [checkConditionState]
          rw [if_pos]
          simp only [bne_iff_ne, Ne]
          exact fun h2 => hcs h2.symm]
      simp only [hcs, if_false]
      rw [crd_invalid_msg_na]

/-- C5: for every CustomResourceDefinition, the health check returns healthy
iff conditions `NamesAccepted` and `Established` are both present (first
occurrence in list order) with status `True` and the `Terminating` condition,
if present, has status `False`; a missing required condition yields exactly
`condition "<type>" is missing` (NamesAccepted being reported first when both
are missing) and a present condition with the wrong status yields exactly
`condition "<type>" has invalid status <actual> (expected <expected>) due to
<reason>: <message>`. -/
theorem crd_health_policy (crd : CustomResourceDefinition) :
    (CheckCustomResourceDefinition crd = none ↔
      ((∃ c, getCustomResourceDefinitionCondition crd.status.conditions namesAccepted =
          some c ∧ c.status = conditionTrue) ∧
       (∃ c, getCustomResourceDefinitionCondition crd.status.conditions established =
          some c ∧ c.status = conditionTrue) ∧
       (∀ c, getCustomResourceDefinitionCondition crd.status.conditions terminating =
          some c → c.status = conditionFalse))) ∧
    (getCustomResourceDefinitionCondition crd.status.conditions namesAccepted = none →
      CheckCustomResourceDefinition crd = some "condition \"NamesAccepted\" is missing") ∧
    (∀ c, getCustomResourceDefinitionCondition crd.status.conditions namesAccepted = some c →
      c.status ≠ conditionTrue →
      CheckCustomResourceDefinition crd =
        some ("condition \"NamesAccepted\" has invalid status " ++ c.status ++
          " (expected True) due to " ++ c.reason ++ ": " ++ c.message)) ∧
    (∀ c, getCustomResourceDefinitionCondition crd.status.conditions namesAccepted = some c →
      c.status = conditionTrue →
      getCustomResourceDefinitionCondition crd.status.conditions established = none →
      CheckCustomResourceDefinition crd = some "condition \"Established\" is missing") ∧
    (∀ c d, getCustomResourceDefinitionCondition crd.status.conditions namesAccepted = some c →
      c.status = conditionTrue →
      getCustomResourceDefinitionCondition crd.status.conditions established = some d →
      d.status ≠ conditionTrue →
      CheckCustomResourceDefinition crd =
        some ("condition \"Established\" has invalid status " ++ d.status ++
          " (expected True) due to " ++ d.reason ++ ": " ++ d.message)) ∧
    (∀ c d t, getCustomResourceDefinitionCondition crd.status.conditions namesAccepted = some c →
      c.status = conditionTrue →
      getCustomResourceDefinitionCondition crd.status.conditions established = some d →
      d.status = conditionTrue →
      getCustomResourceDefinitionCondition crd.status.conditions terminating = some t →
      t.status ≠ conditionFalse →
      CheckCustomResourceDefinition crd =
        some ("condition \"Terminating\" has invalid status " ++ t.status ++
          " (expected False) due to " ++ t.reason ++ ": " ++ t.message)) := by
  rw [checkCRD_cases crd]
  refine ⟨?_, ?_, ?_, ?_, ?_, ?_⟩
  · cases hna : getCustomResourceDefinitionCondition crd.status.conditions namesAccepted with
    | none => simp
    | some c =>
      dsimp only
      by_cases hcs : c.status = conditionTrue
      · rw [if_pos hcs]
        cases hest : getCustomResourceDefinitionCondition crd.status.conditions established with
        | none => simp [hcs]
        | some d =>
          dsimp only
          by_cases hds : d.status = conditionTrue
          · rw [if_pos hds]
            cases hterm : getCustomResourceDefinitionCondition crd.status.conditions
                terminating with
            | none => simp [hcs, hds]
            | some t =>
              dsimp only
              by_cases hts : t.status = conditionFalse
              · rw [if_pos hts]
                simp [hcs, hds, hts]
              · rw [if_neg hts]
                simp [hcs, hds, hts]
          · rw [if_neg hds]
            simp only [Option.some.injEq]
            constructor
            · intro h
              exact absurd h (by simp)
            · rintro ⟨_, ⟨d2, hd2, hd2s⟩, _⟩
              have hds2 : d.status = conditionTrue := by rw [hd2]; exact hd2s
              exact absurd hds2 hds
      · rw [if_neg hcs]
        constructor
        · intro h
          exact absurd h (by simp)
        · rintro ⟨⟨c2, hc2, hc2s⟩, _, _⟩
          have hcs2 : c.status = conditionTrue := by
            injection hc2 with hc2e
            rw [hc2e]
            exact hc2s
          exact absurd hcs2 hcs
  · intro h
    rw [h]
  · intro c hc hcs
    rw [hc]
    dsimp only
    rw [if_neg hcs]
  · intro c hc hcs hest
    rw [hc]
    dsimp only
    rw [if_pos hcs, hest]
  · intro c d hc hcs hest hds
    rw [hc]
    dsimp only
    rw [if_pos hcs, hest]
    dsimp only
    rw [if_neg hds]
  · intro c d t hc hcs hest hds hterm hts
    rw [hc]
    dsimp only
    rw [if_pos hcs, hest]
    dsimp only
    rw [if_pos hds, hterm]
    dsimp only
    rw [if_neg hts]

/-- Witness for C5 at Scenario D: a CRD whose only condition is
`Established=True` fails with the NamesAccepted-missing message; one with
`NamesAccepted=False` present reports the invalid status. -/
theorem crd_health_policy_witness :
    CheckCustomResourceDefinition ⟨⟨[⟨"Established", "True", "r", "m"⟩]⟩⟩ =
      some "condition \"NamesAccepted\" is missing" ∧
    CheckCustomResourceDefinition ⟨⟨[⟨"NamesAccepted", "False", "r", "m"⟩]⟩⟩ =
      some "condition \"NamesAccepted\" has invalid status False (expected True) due to r: m" := by
  constructor
  · exact (crd_health_policy ⟨⟨[⟨"Established", "True", "r", "m"⟩]⟩⟩).2.1 (by decide)
  · have h := (crd_health_policy ⟨⟨[⟨"NamesAccepted", "False", "r", "m"⟩]⟩⟩).2.2.1
      ⟨"NamesAccepted", "False", "r", "m"⟩ (by decide) (by decide)
    rw [h]
    decide

theorem checkTrueCrdConditions_congr
    (conds1 conds2 : List CustomResourceDefinitionCondition)
    (h : ∀ t, getCustomResourceDefinitionCondition conds1 t =
      getCustomResourceDefinitionCondition conds2 t) :
    ∀ ts, checkTrueCrdConditions conds1 ts = checkTrueCrdConditions conds2 ts := by
  intro ts
  induction ts with
  | nil => rfl
  | cons t rest ih =>
    simp only [checkTrueCrdConditions]
    rw [h t]
    cases getCustomResourceDefinitionCondition conds2 t with
    | none => rfl
    | some c =>
      dsimp only
      cases checkConditionState t conditionTrue c.status c.reason c.message with
      | some e => rfl
      | none => exact ih

theorem checkFalseOptionalCrdConditions_congr
    (conds1 conds2 : List CustomResourceDefinitionCondition)
    (h : ∀ t, getCustomResourceDefinitionCondition conds1 t =
      getCustomResourceDefinitionCondition conds2 t) :
    ∀ ts, checkFalseOptionalCrdConditions conds1 ts =
      checkFalseOptionalCrdConditions conds2 ts := by
  intro ts
  induction ts with
  | nil => rfl
  | cons t rest ih =>
    simp only [checkFalseOptionalCrdConditions]
    rw [h t]
    cases getCustomResourceDefinitionCondition conds2 t with
    | none => exact ih
    | some c =>
      dsimp only
      cases checkConditionState t conditionFalse c.status c.reason c.message with
      | some e => rfl
      | none => exact ih

/-- C10: when a conditions list holds several conditions of the same type, the
CRD and Job health checks evaluate only the first matching condition in list
order: the lookups ignore everything after the first match, and the verdicts
are determined by the first condition of each type. -/
theorem crd_job_first_condition_wins :
    (∀ (xs : List CustomResourceDefinitionCondition) (c : CustomResourceDefinitionCondition)
      (ys : List CustomResourceDefinitionCondition) (t : String), c.type = t →
      getCustomResourceDefinitionCondition (xs ++ c :: ys) t =
        getCustomResourceDefinitionCondition (xs ++ [c]) t) ∧
    (∀ (xs : List JobCondition) (c : JobCondition) (ys : List JobCondition) (t : String),
      c.type = t →
      getJobCondition (xs ++ c :: ys) t = getJobCondition (xs ++ [c]) t) ∧
    (∀ conds1 conds2 : List CustomResourceDefinitionCondition,
      (∀ t, getCustomResourceDefinitionCondition conds1 t =
        getCustomResourceDefinitionCondition conds2 t) →
      CheckCustomResourceDefinition ⟨⟨conds1⟩⟩ = CheckCustomResourceDefinition ⟨⟨conds2⟩⟩) ∧
    (∀ conds1 conds2 : List JobCondition,
      (∀ t, getJobCondition conds1 t = getJobCondition conds2 t) →
      CheckJob ⟨⟨conds1⟩⟩ = CheckJob ⟨⟨conds2⟩⟩) := by
  refine ⟨?_, ?_, ?_, ?_⟩
  · intro xs c ys t hct
    simp only [getCustomResourceDefinitionCondition, List.find?_append]
    rw [List.find?_cons_of_pos, List.find?_cons_of_pos]
    · simp [hct]
    · simp [hct]
  · intro xs c ys t hct
    simp only [getJobCondition, List.find?_append]
    rw [List.find?_cons_of_pos, List.find?_cons_of_pos]
    · simp [hct]
    · simp [hct]
  · intro conds1 conds2 h
    simp only [CheckCustomResourceDefinition]
    rw [checkTrueCrdConditions_congr conds1 conds2 h,
      checkFalseOptionalCrdConditions_congr conds1 conds2 h]
  · intro conds1 conds2 h
    simp only [CheckJob]
    rw [h jobFailed]

/-- Witness for C10: duplicate `NamesAccepted` and `Failed` entries after the
first are ignored by the lookups and do not change the verdict. -/
theorem crd_job_first_condition_wins_witness :
    getCustomResourceDefinitionCondition
      ([⟨"Established", "True", "r", "m"⟩] ++ ⟨"NamesAccepted", "True", "r", "m"⟩ ::
        [⟨"NamesAccepted", "False", "r2", "m2"⟩]) "NamesAccepted" =
      getCustomResourceDefinitionCondition
        ([⟨"Established", "True", "r", "m"⟩] ++ [⟨"NamesAccepted", "True", "r", "m"⟩])
        "NamesAccepted" ∧
    getJobCondition ([] ++ ⟨"Failed", "False", "r", "m"⟩ :: [⟨"Failed", "True", "r2", "m2"⟩])
      "Failed" = getJobCondition ([] ++ [⟨"Failed", "False", "r", "m"⟩]) "Failed" ∧
    CheckCustomResourceDefinition
      ⟨⟨[⟨"NamesAccepted", "True", "r", "m"⟩, ⟨"NamesAccepted", "False", "r2", "m2"⟩]⟩⟩ =
      CheckCustomResourceDefinition ⟨⟨[⟨"NamesAccepted", "True", "r", "m"⟩]⟩⟩ ∧
    CheckJob ⟨⟨[⟨"Failed", "False", "r", "m"⟩, ⟨"Failed", "True", "r2", "m2"⟩]⟩⟩ =
      CheckJob ⟨⟨[⟨"Failed", "False", "r", "m"⟩]⟩⟩ := by
  refine ⟨crd_job_first_condition_wins.1 [⟨"Established", "True", "r", "m"⟩]
      ⟨"NamesAccepted", "True", "r", "m"⟩ [⟨"NamesAccepted", "False", "r2", "m2"⟩]
      "NamesAccepted" rfl,
    crd_job_first_condition_wins.2.1 [] ⟨"Failed", "False", "r", "m"⟩
      [⟨"Failed", "True", "r2", "m2"⟩] "Failed" rfl,
    crd_job_first_condition_wins.2.2.1 _ _ ?_,
    crd_job_first_condition_wins.2.2.2 _ _ ?_⟩
  · intro t
    by_cases h : "NamesAccepted" = t
    · simp [getCustomResourceDefinitionCondition, List.find?, h]
    · simp only [getCustomResourceDefinitionCondition, List.find?]
      have hb : (("NamesAccepted" : String) == t) = false := by
        simp [h]
      simp [hb]
  · intro t
    by_cases h : "Failed" = t
    · simp [getJobCondition, List.find?, h]
    · simp only [getJobCondition, List.find?]
      have hb : (("Failed" : String) == t) = false := by
        simp [h]
      simp [hb]

/-- C1: after a reconcile of a Secret completes successfully with no
concurrent external mutation (every update attempt succeeds — here: the
outcome script is empty, so the first attempt succeeds), the Secret's
finalizer set contains the controller's finalizer identifier iff some
ManagedResource in the Secret's namespace is one the ClassFilter deems the
reconciler responsible for and names the Secret among its secretRefs. -/
theorem reconcile_reference_invariant (classFilter : ClassFilter) (env : ReconcileEnv)
    (secret : Secret) (items : List ManagedResource)
    (hget : env.getSecret = .found secret)
    (hlist : env.listResources = .ok items)
    (houts : env.updateOutcomes = [])
    (hns : ∀ r ∈ items, r.ns = secret.ns) :
    (Reconcile classFilter env).hasError = false ∧
    ∃ final, (Reconcile classFilter env).finalSecret = some final ∧
      (classFilter.FinalizerName ∈ final.finalizers ↔
        ∃ r ∈ items, r.ns = secret.ns ∧ classFilter.Responsible r = true ∧
          ∃ ref ∈ r.secretRefs, ref.name = secret.name) := by
  have hRHS : (∃ r ∈ items, r.ns = secret.ns ∧ classFilter.Responsible r = true ∧
      ∃ ref ∈ r.secretRefs, ref.name = secret.name) ↔
      secretIsReferenced classFilter secret items = true := by
    rw [secretIsReferenced_iff]
    constructor
    · rintro ⟨r, hr, _, hresp, hrref⟩
      exact ⟨r, hr, hresp, hrref⟩
    · rintro ⟨r, hr, hresp, hrref⟩
      exact ⟨r, hr, hns r hr, hresp, hrref⟩
  have hsteps : 0 < retryDefaultBackoff.steps := by decide
  cases hr : secretIsReferenced classFilter secret items with
  | true =>
    cases hh : secret.finalizers.contains classFilter.FinalizerName with
    | false =>
      have hadd : reconcileAddFinalizer classFilter secret items = true := by
        unfold reconcileAddFinalizer
        rw [hr, hh]
        decide
      have hrem : reconcileRemoveFinalizer classFilter secret items = false := by
        unfold reconcileRemoveFinalizer
        rw [hr, hh]
        decide
      have hrun : reconcileRun classFilter secret items env.updateOutcomes =
          { result := .updated (finalizerTransform classFilter.FinalizerName true false secret)
            writes := [(secret, finalizerTransform classFilter.FinalizerName true false secret)] } := by
        rw [reconcileRun, hadd, hrem, houts, tryUpdate_nil_outcomes _ _ _ hsteps]
      simp only [Reconcile, hget, hlist, hadd, hrem, Bool.true_or, if_true, hrun]
      refine ⟨by trivial, _, by trivial, ?_⟩
      rw [hRHS, hr]
      simp only [iff_true, finalizerTransform, if_true]
      rw [mem_stringSetInsert]
      exact Or.inl rfl
    | true =>
      have hadd : reconcileAddFinalizer classFilter secret items = false := by
        unfold reconcileAddFinalizer
        rw [hr, hh]
        decide
      have hrem : reconcileRemoveFinalizer classFilter secret items = false := by
        unfold reconcileRemoveFinalizer
        rw [hr, hh]
        decide
      simp only [Reconcile, hget, hlist, hadd, hrem, Bool.or_false, if_false]
      refine ⟨by trivial, secret, by trivial, ?_⟩
      rw [hRHS, hr]
      simp only [iff_true]
      exact (contains_eq_true_iff_mem secret.finalizers classFilter.FinalizerName).mp hh
  | false =>
    cases hh : secret.finalizers.contains classFilter.FinalizerName with
    | true =>
      have hadd : reconcileAddFinalizer classFilter secret items = false := by
        unfold reconcileAddFinalizer
        rw [hr, hh]
        decide
      have hrem : reconcileRemoveFinalizer classFilter secret items = true := by
        unfold reconcileRemoveFinalizer
        rw [hr, hh]
        decide
      have hrun : reconcileRun classFilter secret items env.updateOutcomes =
          { result := .updated (finalizerTransform classFilter.FinalizerName false true secret)
            writes := [(secret, finalizerTransform classFilter.FinalizerName false true secret)] } := by
        rw [reconcileRun, hadd, hrem, houts, tryUpdate_nil_outcomes _ _ _ hsteps]
      simp only [Reconcile, hget, hlist, hadd, hrem, Bool.or_true, if_true, hrun]
      refine ⟨by trivial, _, by trivial, ?_⟩
      rw [hRHS, hr]
      simp only [iff_false, finalizerTransform, if_false]
      simp only [Bool.false_eq_true, if_false]
      rw [if_pos trivial]
      exact iff_false_intro
        (stringSetDelete_not_mem classFilter.FinalizerName secret.finalizers)
    | false =>
      have hadd : reconcileAddFinalizer classFilter secret items = false := by
        unfold reconcileAddFinalizer
        rw [hr, hh]
        decide
      have hrem : reconcileRemoveFinalizer classFilter secret items = false := by
        unfold reconcileRemoveFinalizer
        rw [hr, hh]
        decide
      simp only [Reconcile, hget, hlist, hadd, hrem, Bool.or_false, if_false]
      refine ⟨by trivial, secret, by trivial, ?_⟩
      rw [hRHS, hr]
      simp only [Bool.false_eq_true, iff_false]
      intro hmem
      rw [← contains_eq_true_iff_mem] at hmem
      rw [hmem] at hh
      exact Bool.true_eq_false.mp hh

/-- Witness for C1 at Scenario A: Secret `db-creds` with no finalizer,
referenced by a default-class ManagedResource in its namespace, ends the
reconcile carrying the controller finalizer. -/
theorem reconcile_reference_invariant_witness :
    (Reconcile ⟨"default"⟩
      ⟨.found ⟨"db-creds", "ns1", [], [], 1⟩,
        .ok [⟨"ns1", none, [⟨"db-creds"⟩]⟩], []⟩).hasError = false ∧
    ∃ final,
      (Reconcile ⟨"default"⟩
        ⟨.found ⟨"db-creds", "ns1", [], [], 1⟩,
          .ok [⟨"ns1", none, [⟨"db-creds"⟩]⟩], []⟩).finalSecret = some final ∧
      ((⟨"default"⟩ : ClassFilter).FinalizerName ∈ final.finalizers ↔
        ∃ r ∈ [(⟨"ns1", none, [⟨"db-creds"⟩]⟩ : ManagedResource)],
          r.ns = (⟨"db-creds", "ns1", [], [], 1⟩ : Secret).ns ∧
          (⟨"default"⟩ : ClassFilter).Responsible r = true ∧
          ∃ ref ∈ r.secretRefs, ref.name = (⟨"db-creds", "ns1", [], [], 1⟩ : Secret).name) :=
  reconcile_reference_invariant ⟨"default"⟩
    ⟨.found ⟨"db-creds", "ns1", [], [], 1⟩, .ok [⟨"ns1", none, [⟨"db-creds"⟩]⟩], []⟩
    ⟨"db-creds", "ns1", [], [], 1⟩ [⟨"ns1", none, [⟨"db-creds"⟩]⟩]
    rfl rfl rfl (by decide)

theorem reconcile_writes_bounded (classFilter : ClassFilter) (env : ReconcileEnv) :
    (Reconcile classFilter env).writes.length ≤ retryDefaultBackoff.steps := by
  unfold Reconcile
  cases env.getSecret with
  | error => simp
  | notFound => simp
  | found secret =>
    cases env.listResources with
    | error => simp
    | ok items =>
      dsimp only
      split_ifs with h
      · cases hres : (reconcileRun classFilter secret items env.updateOutcomes).result with
        | updated w =>
          simp only [hres, reconcileRun]
          exact tryUpdate_writes_length _ _ _ _
        | failedNotFound =>
          simp only [hres, reconcileRun]
          exact tryUpdate_writes_length _ _ _ _
        | failedOther =>
          simp only [hres, reconcileRun]
          exact tryUpdate_writes_length _ _ _ _
        | timeout =>
          simp only [hres, reconcileRun]
          exact tryUpdate_writes_length _ _ _ _
      · simp

/-- C2 counterexample: at this concrete input the write conflicts once; the
fresh resource list is empty (the ManagedResource is gone), so recomputing the
add/remove decision would leave the finalizer off, yet `Reconcile` replays the
originally computed add decision against the re-read Secret and ends with the
finalizer present — it does not recompute the desired state on retry, the
spec-reading variant `ReconcileRecompute` does. -/
theorem reconcile_retry_counterexample :
    (∃ s, (Reconcile ⟨"default"⟩
        ⟨.found ⟨"db-creds", "ns1", [], [], 1⟩, .ok [⟨"ns1", none, [⟨"db-creds"⟩]⟩],
          [.conflict ⟨"db-creds", "ns1", [], [], 2⟩ [], .success]⟩).finalSecret = some s ∧
      (⟨"default"⟩ : ClassFilter).FinalizerName ∈ s.finalizers) ∧
    (∃ s, ReconcileRecompute ⟨"default"⟩
        ⟨.found ⟨"db-creds", "ns1", [], [], 1⟩, .ok [⟨"ns1", none, [⟨"db-creds"⟩]⟩],
          [.conflict ⟨"db-creds", "ns1", [], [], 2⟩ [], .success]⟩ = some s ∧
      (⟨"default"⟩ : ClassFilter).FinalizerName ∉ s.finalizers) ∧
    secretIsReferenced ⟨"default"⟩ ⟨"db-creds", "ns1", [], [], 2⟩ [] = false := by
  refine ⟨⟨⟨"db-creds", "ns1", ["resources/finalizer"], [], 2⟩, ?_, ?_⟩,
    ⟨⟨"db-creds", "ns1", [], [], 2⟩, ?_, ?_⟩, ?_⟩ <;> decide

/-- C2 (amended): when the finalizer write hits a concurrency-token conflict,
the retry re-applies the originally computed add/remove decision to the
freshly re-read Secret's finalizer set (the referenced-or-not decision is not
recomputed within the retry), up to a bounded number of attempts (the backoff's
step budget) whose delays strictly increase. -/
theorem reconcile_retry_rereads_and_bounded (classFilter : ClassFilter)
    (env : ReconcileEnv) (secret fresh : Secret)
    (items freshItems : List ManagedResource)
    (hget : env.getSecret = .found secret)
    (hlist : env.listResources = .ok items)
    (houts : env.updateOutcomes = [.conflict fresh freshItems, .success])
    (hneed : (reconcileAddFinalizer classFilter secret items ||
      reconcileRemoveFinalizer classFilter secret items) = true) :
    (Reconcile classFilter env).writes =
      [(secret, finalizerTransform classFilter.FinalizerName
          (reconcileAddFinalizer classFilter secret items)
          (reconcileRemoveFinalizer classFilter secret items) secret),
       (fresh, finalizerTransform classFilter.FinalizerName
          (reconcileAddFinalizer classFilter secret items)
          (reconcileRemoveFinalizer classFilter secret items) fresh)] ∧
    (Reconcile classFilter env).finalSecret =
      some (finalizerTransform classFilter.FinalizerName
        (reconcileAddFinalizer classFilter secret items)
        (reconcileRemoveFinalizer classFilter secret items) fresh) ∧
    (Reconcile classFilter env).hasError = false ∧
    (∀ env2, (Reconcile classFilter env2).writes.length ≤ retryDefaultBackoff.steps) ∧
    List.Chain' (fun a b => a < b) (backoffDelays retryDefaultBackoff) := by
  have hrun : reconcileRun classFilter secret items env.updateOutcomes =
      { result := .updated (finalizerTransform classFilter.FinalizerName
          (reconcileAddFinalizer classFilter secret items)
          (reconcileRemoveFinalizer classFilter secret items) fresh)
        writes := [(secret, finalizerTransform classFilter.FinalizerName
            (reconcileAddFinalizer classFilter secret items)
            (reconcileRemoveFinalizer classFilter secret items) secret),
          (fresh, finalizerTransform classFilter.FinalizerName
            (reconcileAddFinalizer classFilter secret items)
            (reconcileRemoveFinalizer classFilter secret items) fresh)] } := by
    rw [reconcileRun, houts]
    rfl
  simp only [Reconcile, hget, hlist, hneed, if_true, hrun]
  refine ⟨by trivial, by trivial, by trivial, ?_, ?_⟩
  · exact fun env2 => reconcile_writes_bounded classFilter env2
  · have hd : backoffDelays retryDefaultBackoff = [10, 50, 250, 1250] := by decide
    rw [hd]
    simp only [List.chain'_cons, List.chain'_singleton, and_true]
    omega

/-- Witness for C2's amended theorem: a single conflict followed by success;
the second write applies the original add decision to the re-read Secret. -/
theorem reconcile_retry_rereads_and_bounded_witness :
    (Reconcile ⟨"default"⟩
      ⟨.found ⟨"db-creds", "ns2", [], [], 1⟩, .ok [⟨"ns2", none, [⟨"db-creds"⟩]⟩],
        [.conflict ⟨"db-creds", "ns2", [], [], 7⟩ [⟨"ns2", none, [⟨"db-creds"⟩]⟩],
          .success]⟩).writes =
      [(⟨"db-creds", "ns2", [], [], 1⟩, ⟨"db-creds", "ns2", ["resources/finalizer"], [], 1⟩),
       (⟨"db-creds", "ns2", [], [], 7⟩,
        ⟨"db-creds", "ns2", ["resources/finalizer"], [], 7⟩)] ∧
    (Reconcile ⟨"default"⟩
      ⟨.found ⟨"db-creds", "ns2", [], [], 1⟩, .ok [⟨"ns2", none, [⟨"db-creds"⟩]⟩],
        [.conflict ⟨"db-creds", "ns2", [], [], 7⟩ [⟨"ns2", none, [⟨"db-creds"⟩]⟩],
          .success]⟩).finalSecret =
      some ⟨"db-creds", "ns2", ["resources/finalizer"], [], 7⟩ := by
  have h := reconcile_retry_rereads_and_bounded ⟨"default"⟩
    ⟨.found ⟨"db-creds", "ns2", [], [], 1⟩, .ok [⟨"ns2", none, [⟨"db-creds"⟩]⟩],
      [.conflict ⟨"db-creds", "ns2", [], [], 7⟩ [⟨"ns2", none, [⟨"db-creds"⟩]⟩], .success]⟩
    ⟨"db-creds", "ns2", [], [], 1⟩ ⟨"db-creds", "ns2", [], [], 7⟩
    [⟨"ns2", none, [⟨"db-creds"⟩]⟩] [⟨"ns2", none, [⟨"db-creds"⟩]⟩]
    rfl rfl rfl (by decide)
  refine ⟨?_, ?_⟩
  · rw [h.1]
    decide
  · rw [h.2.1]
    decide

/-- C3: reconciling a converged Secret (referenced with the finalizer already
present, or unreferenced without it — i.e. the referenced bit equals the
has-finalizer bit) issues zero write calls and returns success with no
requeue. -/
theorem reconcile_idempotent_on_converged (classFilter : ClassFilter)
    (env : ReconcileEnv) (secret : Secret) (items : List ManagedResource)
    (hget : env.getSecret = .found secret)
    (hlist : env.listResources = .ok items)
    (hconv : secretIsReferenced classFilter secret items =
      secret.finalizers.contains classFilter.FinalizerName) :
    (Reconcile classFilter env).writes = [] ∧
    (Reconcile classFilter env).hasError = false ∧
    (Reconcile classFilter env).requeueAfterSeconds = 0 ∧
    (Reconcile classFilter env).finalSecret = some secret := by
  have hadd : reconcileAddFinalizer classFilter secret items = false := by
    unfold reconcileAddFinalizer
    rw [hconv]
    cases secret.finalizers.contains classFilter.FinalizerName <;> decide
  have hrem : reconcileRemoveFinalizer classFilter secret items = false := by
    unfold reconcileRemoveFinalizer
    rw [hconv]
    cases secret.finalizers.contains classFilter.FinalizerName <;> decide
  simp only [Reconcile, hget, hlist, hadd, hrem, Bool.or_false, if_false]
  exact ⟨rfl, rfl, rfl, rfl⟩

/-- Witness for C3: a referenced Secret already carrying the finalizer is
reconciled with zero writes. -/
theorem reconcile_idempotent_on_converged_witness :
    (Reconcile ⟨"default"⟩
      ⟨.found ⟨"db-creds", "ns3", ["resources/finalizer"], [], 1⟩,
        .ok [⟨"ns3", none, [⟨"db-creds"⟩]⟩], []⟩).writes = [] ∧
    (Reconcile ⟨"default"⟩
      ⟨.found ⟨"db-creds", "ns3", ["resources/finalizer"], [], 1⟩,
        .ok [⟨"ns3", none, [⟨"db-creds"⟩]⟩], []⟩).hasError = false ∧
    (Reconcile ⟨"default"⟩
      ⟨.found ⟨"db-creds", "ns3", ["resources/finalizer"], [], 1⟩,
        .ok [⟨"ns3", none, [⟨"db-creds"⟩]⟩], []⟩).requeueAfterSeconds = 0 ∧
    (Reconcile ⟨"default"⟩
      ⟨.found ⟨"db-creds", "ns3", ["resources/finalizer"], [], 1⟩,
        .ok [⟨"ns3", none, [⟨"db-creds"⟩]⟩], []⟩).finalSecret =
      some ⟨"db-creds", "ns3", ["resources/finalizer"], [], 1⟩ :=
  reconcile_idempotent_on_converged ⟨"default"⟩
    ⟨.found ⟨"db-creds", "ns3", ["resources/finalizer"], [], 1⟩,
      .ok [⟨"ns3", none, [⟨"db-creds"⟩]⟩], []⟩
    ⟨"db-creds", "ns3", ["resources/finalizer"], [], 1⟩
    [⟨"ns3", none, [⟨"db-creds"⟩]⟩] rfl rfl (by decide)

/-- C6: when the finalizer write fails for a reason other than not-found
(another error, or the conflict-retry budget exhausted), `Reconcile` returns a
nil error with a fixed 5-second requeue delay, and the failure is logged
rather than propagated. -/
theorem reconcile_update_failure_fixed_delay (classFilter : ClassFilter)
    (env : ReconcileEnv) (secret : Secret) (items : List ManagedResource)
    (hget : env.getSecret = .found secret)
    (hlist : env.listResources = .ok items)
    (hneed : (reconcileAddFinalizer classFilter secret items ||
      reconcileRemoveFinalizer classFilter secret items) = true)
    (hfail : (reconcileRun classFilter secret items env.updateOutcomes).result =
        .failedOther ∨
      (reconcileRun classFilter secret items env.updateOutcomes).result = .timeout) :
    (Reconcile classFilter env).hasError = false ∧
    (Reconcile classFilter env).requeueAfterSeconds = 5 ∧
    (Reconcile classFilter env).loggedUpdateFailure = true := by
  simp only [Reconcile, hget, hlist, hneed, if_true]
  rcases hfail with h | h <;> rw [h] <;> exact ⟨rfl, rfl, rfl⟩

/-- Witness for C6: a non-conflict, non-not-found update error yields success
with a 5-second requeue and the logged failure; so does a run of conflicts
exhausting the 4-step budget. -/
theorem reconcile_update_failure_fixed_delay_witness :
    ((Reconcile ⟨"default"⟩
      ⟨.found ⟨"db-creds", "ns4", [], [], 1⟩, .ok [⟨"ns4", none, [⟨"db-creds"⟩]⟩],
        [.otherError]⟩).hasError = false ∧
    (Reconcile ⟨"default"⟩
      ⟨.found ⟨"db-creds", "ns4", [], [], 1⟩, .ok [⟨"ns4", none, [⟨"db-creds"⟩]⟩],
        [.otherError]⟩).requeueAfterSeconds = 5 ∧
    (Reconcile ⟨"default"⟩
      ⟨.found ⟨"db-creds", "ns4", [], [], 1⟩, .ok [⟨"ns4", none, [⟨"db-creds"⟩]⟩],
        [.otherError]⟩).loggedUpdateFailure = true) ∧
    (Reconcile ⟨"default"⟩
      ⟨.found ⟨"db-creds", "ns4", [], [], 1⟩, .ok [⟨"ns4", none, [⟨"db-creds"⟩]⟩],
        [.conflict ⟨"db-creds", "ns4", [], [], 2⟩ [],
         .conflict ⟨"db-creds", "ns4", [], [], 3⟩ [],
         .conflict ⟨"db-creds", "ns4", [], [], 4⟩ [],
         .conflict ⟨"db-creds", "ns4", [], [], 5⟩ []]⟩).requeueAfterSeconds = 5 :=
  ⟨reconcile_update_failure_fixed_delay ⟨"default"⟩
      ⟨.found ⟨"db-creds", "ns4", [], [], 1⟩, .ok [⟨"ns4", none, [⟨"db-creds"⟩]⟩],
        [.otherError]⟩
      ⟨"db-creds", "ns4", [], [], 1⟩ [⟨"ns4", none, [⟨"db-creds"⟩]⟩]
      rfl rfl (by decide) (Or.inl (by decide)),
    (reconcile_update_failure_fixed_delay ⟨"default"⟩
      ⟨.found ⟨"db-creds", "ns4", [], [], 1⟩, .ok [⟨"ns4", none, [⟨"db-creds"⟩]⟩],
        [.conflict ⟨"db-creds", "ns4", [], [], 2⟩ [],
         .conflict ⟨"db-creds", "ns4", [], [], 3⟩ [],
         .conflict ⟨"db-creds", "ns4", [], [], 4⟩ [],
         .conflict ⟨"db-creds", "ns4", [], [], 5⟩ []]⟩
      ⟨"db-creds", "ns4", [], [], 1⟩ [⟨"ns4", none, [⟨"db-creds"⟩]⟩]
      rfl rfl (by decide) (Or.inr (by decide))).2.1⟩

/-- C7: a not-found outcome is terminal and non-error in both places it can
occur: a not-found initial fetch returns success with no further action (no
list, no writes, no requeue), and a not-found reported by the finalizer update
returns success with no requeue and no logged failure. -/
theorem reconcile_not_found_terminal (classFilter : ClassFilter) :
    (∀ env : ReconcileEnv, env.getSecret = .notFound →
      Reconcile classFilter env =
        { requeueAfterSeconds := 0, hasError := false, loggedUpdateFailure := false
          listedResources := false, writes := [], finalSecret := none }) ∧
    (∀ (env : ReconcileEnv) (secret : Secret) (items : List ManagedResource),
      env.getSecret = .found secret → env.listResources = .ok items →
      (reconcileRun classFilter secret items env.updateOutcomes).result =
        .failedNotFound →
      (Reconcile classFilter env).hasError = false ∧
      (Reconcile classFilter env).requeueAfterSeconds = 0 ∧
      (Reconcile classFilter env).loggedUpdateFailure = false) := by
  constructor
  · intro env hget
    simp only [Reconcile, hget]
  · intro env secret items hget hlist hnf
    by_cases hneed : (reconcileAddFinalizer classFilter secret items ||
        reconcileRemoveFinalizer classFilter secret items) = true
    · simp only [Reconcile, hget, hlist, hneed, if_true]
      rw [hnf]
      exact ⟨rfl, rfl, rfl⟩
    · simp only [Reconcile, hget, hlist, if_neg hneed]
      exact ⟨by trivial, by trivial, by trivial⟩

/-- Witness for C7: a not-found fetch is a terminal success, and a not-found
during the write is ignored (success, no requeue). -/
theorem reconcile_not_found_terminal_witness :
    Reconcile ⟨"default"⟩ ⟨.notFound, .ok [], []⟩ =
      { requeueAfterSeconds := 0, hasError := false, loggedUpdateFailure := false
        listedResources := false, writes := [], finalSecret := none } ∧
    ((Reconcile ⟨"default"⟩
      ⟨.found ⟨"db-creds", "ns5", [], [], 1⟩, .ok [⟨"ns5", none, [⟨"db-creds"⟩]⟩],
        [.notFound]⟩).hasError = false ∧
    (Reconcile ⟨"default"⟩
      ⟨.found ⟨"db-creds", "ns5", [], [], 1⟩, .ok [⟨"ns5", none, [⟨"db-creds"⟩]⟩],
        [.notFound]⟩).requeueAfterSeconds = 0 ∧
    (Reconcile ⟨"default"⟩
      ⟨.found ⟨"db-creds", "ns5", [], [], 1⟩, .ok [⟨"ns5", none, [⟨"db-creds"⟩]⟩],
        [.notFound]⟩).loggedUpdateFailure = false) :=
  ⟨(reconcile_not_found_terminal ⟨"default"⟩).1 ⟨.notFound, .ok [], []⟩ rfl,
    (reconcile_not_found_terminal ⟨"default"⟩).2
      ⟨.found ⟨"db-creds", "ns5", [], [], 1⟩, .ok [⟨"ns5", none, [⟨"db-creds"⟩]⟩],
        [.notFound]⟩
      ⟨"db-creds", "ns5", [], [], 1⟩ [⟨"ns5", none, [⟨"db-creds"⟩]⟩]
      rfl rfl (by decide)⟩

/-- C8: every write `Reconcile` issues touches only the finalizers field of
the Secret it was given: identity, payload and concurrency token are
unchanged, the finalizer set is exactly the pre-write set with the
controller's own finalizer inserted or deleted, and every other finalizer
present before the write is still a member after it. -/
theorem reconcile_frame_only_finalizers (classFilter : ClassFilter)
    (env : ReconcileEnv) (secret : Secret) (items : List ManagedResource)
    (pre post : Secret)
    (hget : env.getSecret = .found secret)
    (hlist : env.listResources = .ok items)
    (hw : (pre, post) ∈ (Reconcile classFilter env).writes) :
    post.name = pre.name ∧ post.ns = pre.ns ∧ post.data = pre.data ∧
    post.resourceVersion = pre.resourceVersion ∧
    (post.finalizers = stringSetInsert classFilter.FinalizerName pre.finalizers ∨
     post.finalizers = stringSetDelete classFilter.FinalizerName pre.finalizers) ∧
    (∀ g, g ≠ classFilter.FinalizerName → g ∈ pre.finalizers → g ∈ post.finalizers) := by
  by_cases hneed : (reconcileAddFinalizer classFilter secret items ||
      reconcileRemoveFinalizer classFilter secret items) = true
  · have hmem : (pre, post) ∈
        (reconcileRun classFilter secret items env.updateOutcomes).writes := by
      simp only [Reconcile, hget, hlist, hneed, if_true] at hw
      cases hres : (reconcileRun classFilter secret items env.updateOutcomes).result with
      | updated w => rw [hres] at hw; exact hw
      | failedNotFound => rw [hres] at hw; exact hw
      | failedOther => rw [hres] at hw; exact hw
      | timeout => rw [hres] at hw; exact hw
    have htrans : post = finalizerTransform classFilter.FinalizerName
        (reconcileAddFinalizer classFilter secret items)
        (reconcileRemoveFinalizer classFilter secret items) pre := by
      simp only [reconcileRun] at hmem
      exact tryUpdate_writes_are_transform _ _ _ _ _ _ hmem
    cases hadd : reconcileAddFinalizer classFilter secret items with
    | true =>
      rw [hadd] at htrans
      simp only [finalizerTransform, if_true] at htrans
      rw [htrans]
      refine ⟨rfl, rfl, rfl, rfl, Or.inl rfl, ?_⟩
      intro g _ hg
      rw [mem_stringSetInsert]
      exact Or.inr hg
    | false =>
      have hrem : reconcileRemoveFinalizer classFilter secret items = true := by
        rw [hadd] at hneed
        simpa using hneed
      rw [hadd, hrem] at htrans
      simp only [finalizerTransform, Bool.false_eq_true, if_false, if_true] at htrans
      rw [htrans]
      refine ⟨rfl, rfl, rfl, rfl, Or.inr rfl, ?_⟩
      intro g hgne hg
      rw [mem_stringSetDelete]
      exact ⟨hg, hgne⟩
  · simp only [Reconcile, hget, hlist, if_neg hneed] at hw
    simp at hw

/-- Witness for C8: the single write of an add-reconcile preserves identity,
payload and token, and only inserts the controller finalizer, keeping the
foreign finalizer `other/fin` a member. -/
theorem reconcile_frame_only_finalizers_witness :
    (⟨"db-creds", "ns6", ["other/fin", "resources/finalizer"], [("k", "v")], 1⟩ : Secret).name =
      (⟨"db-creds", "ns6", ["other/fin"], [("k", "v")], 1⟩ : Secret).name ∧
    (⟨"db-creds", "ns6", ["other/fin", "resources/finalizer"], [("k", "v")], 1⟩ : Secret).ns =
      (⟨"db-creds", "ns6", ["other/fin"], [("k", "v")], 1⟩ : Secret).ns ∧
    (⟨"db-creds", "ns6", ["other/fin", "resources/finalizer"], [("k", "v")], 1⟩ : Secret).data =
      (⟨"db-creds", "ns6", ["other/fin"], [("k", "v")], 1⟩ : Secret).data ∧
    (⟨"db-creds", "ns6", ["other/fin", "resources/finalizer"], [("k", "v")],
        1⟩ : Secret).resourceVersion =
      (⟨"db-creds", "ns6", ["other/fin"], [("k", "v")], 1⟩ : Secret).resourceVersion ∧
    ((⟨"db-creds", "ns6", ["other/fin", "resources/finalizer"], [("k", "v")],
        1⟩ : Secret).finalizers =
      stringSetInsert (ClassFilter.FinalizerName ⟨"default"⟩)
        (⟨"db-creds", "ns6", ["other/fin"], [("k", "v")], 1⟩ : Secret).finalizers ∨
     (⟨"db-creds", "ns6", ["other/fin", "resources/finalizer"], [("k", "v")],
        1⟩ : Secret).finalizers =
      stringSetDelete (ClassFilter.FinalizerName ⟨"default"⟩)
        (⟨"db-creds", "ns6", ["other/fin"], [("k", "v")], 1⟩ : Secret).finalizers) ∧
    (∀ g, g ≠ ClassFilter.FinalizerName ⟨"default"⟩ →
      g ∈ (⟨"db-creds", "ns6", ["other/fin"], [("k", "v")], 1⟩ : Secret).finalizers →
      g ∈ (⟨"db-creds", "ns6", ["other/fin", "resources/finalizer"], [("k", "v")],
        1⟩ : Secret).finalizers) :=
  reconcile_frame_only_finalizers ⟨"default"⟩
    ⟨.found ⟨"db-creds", "ns6", ["other/fin"], [("k", "v")], 1⟩,
      .ok [⟨"ns6", none, [⟨"db-creds"⟩]⟩], []⟩
    ⟨"db-creds", "ns6", ["other/fin"], [("k", "v")], 1⟩ [⟨"ns6", none, [⟨"db-creds"⟩]⟩]
    ⟨"db-creds", "ns6", ["other/fin"], [("k", "v")], 1⟩
    ⟨"db-creds", "ns6", ["other/fin", "resources/finalizer"], [("k", "v")], 1⟩
    rfl rfl (by decide)

end GardenerRM
